import Mathlib

/-!
Shallow embedding of the stream-file subsystem (src/src/glc/core/file.c,
constants from src/src/glc/common/glc.h).

Files are modelled as lists of byte values (natural numbers).  The C stdio
calls are modelled with their standard semantics; in particular a call
fread(p, size, 1, f) or fwrite(p, size, 1, f) returns 1 exactly when size
is nonzero and the transfer is complete, and returns 0 when size is zero.
The external packetstream buffer and the process-wide cancellation flag are
modelled by oracles (read_env); the OS calls made by the attach path are
modelled by an oracle environment (os_env) plus a call trace.
-/

namespace Glcs

/-! Constants from glc.h and the C library (Linux values). -/

def GLC_STREAM_VERSION : Nat := 0x2

def GLC_SIGNATURE : Nat := 0x00434c47

def GLC_MESSAGE_CLOSE : Nat := 0x01

def GLC_MESSAGE_CONTAINER : Nat := 0x09

/-- Modelled from the spec: the additional non-persisted control tag that
carries callback requests (its numeric value is not among the reserved tags
0x01..0x09 and does not appear in the headers under src/). -/
def GLC_CALLBACK_REQUEST : Nat := 0x0a

/-- Modelled from the spec: the size of the container message header,
inner_length(8 bytes) followed by inner_tag(1 byte); glc.h records the same
layout as GLC_CONTAINER_MESSAGE_SIZE = 9. -/
def GLC_CONTAINER_MESSAGE_HEADER_SIZE : Nat := 9

def EINTR : Nat := 4

def EAGAIN : Nat := 11

def EBUSY : Nat := 16

def EINVAL : Nat := 22

def EBADMSG : Nat := 74

def ENOTSUP : Nat := 95

def F_SETLK : Nat := 6

def F_SETLKW : Nat := 7

def F_WRLCK : Nat := 1

def SEEK_SET : Nat := 0

def S_IXGRP : Nat := 8

def S_ISGID : Nat := 1024

/-! Little-endian byte encoding used by the on-disk integer fields. -/

def le_bytes : Nat → Nat → List Nat
  | 0, _ => []
  | k + 1, n => n % 256 :: le_bytes k (n / 256)

def le64 (n : Nat) : List Nat := le_bytes 8 n

def le32 (n : Nat) : List Nat := le_bytes 4 n

def ledec : List Nat → Nat
  | [] => 0
  | b :: bs => b + 256 * ledec bs

/-- fread(ptr, size, 1, f) against a byte list: returns the taken bytes and
the rest when the full transfer happens; a zero size or a short file gives
a return value different from 1, modelled as none. -/
def fread (size : Nat) (s : List Nat) : Option (List Nat × List Nat) :=
  if size = 0 then none
  else if size ≤ s.length then some (s.take size, s.drop size) else none

/-! The data model: stream info header and controller state. -/

structure glc_stream_info_t where
  signature : Nat
  version : Nat
  fps : List Nat
  flags : Nat
  pid : Nat
  name_size : Nat
  date_size : Nat
deriving DecidableEq

def encode_stream_info (i : glc_stream_info_t) : List Nat :=
  le32 i.signature ++ le32 i.version ++ i.fps ++ le32 i.flags ++ le32 i.pid ++
    le32 i.name_size ++ le32 i.date_size

def decode_stream_info (b : List Nat) : glc_stream_info_t :=
  { signature := ledec (b.take 4)
    version := ledec ((b.drop 4).take 4)
    fps := (b.drop 8).take 8
    flags := ledec ((b.drop 16).take 4)
    pid := ledec ((b.drop 20).take 4)
    name_size := ledec ((b.drop 24).take 4)
    date_size := ledec ((b.drop 28).take 4) }

/-- The controller state struct file_s: the handle and the individual bits of
the flags word (FILE_READING, FILE_WRITING, FILE_RUNNING, FILE_INFO_WRITTEN,
FILE_INFO_READ, FILE_INFO_VALID), the sync mode, the detected stream version
and whether a callback hook is installed. -/
structure file_s where
  handle : Bool
  reading : Bool
  writing : Bool
  running : Bool
  info_written : Bool
  info_read : Bool
  info_valid : Bool
  sync : Bool
  stream_version : Nat
  has_callback : Bool
deriving DecidableEq

/-! file_test_stream_version. -/

def file_test_stream_version (version : Nat) : Nat :=
  if version = GLC_STREAM_VERSION then 0
  else if version = 0x03 then 0
  else ENOTSUP

/-! file_read_info. -/

structure read_info_out where
  ret : Nat
  st : file_s
  rest : List Nat
  name : Option (List Nat)
  date : Option (List Nat)
deriving DecidableEq

/-- The conditional read of the name or date block: performed only when the
recorded size is positive, exactly as in file_read_info. -/
def read_block (sz : Nat) (s : List Nat) : Option (Option (List Nat) × List Nat) :=
  if 0 < sz then
    match fread sz s with
    | none => none
    | some (b, s2) => some (some b, s2)
  else some (none, s)

def file_read_info (st : file_s) (s : List Nat) (errno0 : Nat) : read_info_out :=
  if !st.handle || !st.reading then ⟨EAGAIN, st, s, none, none⟩
  else
    match fread 32 s with
    | none => ⟨errno0, st, s, none, none⟩
    | some (hdr, s1) =>
      let info := decode_stream_info hdr
      let st1 := { st with info_read := true }
      if info.signature ≠ GLC_SIGNATURE then ⟨EINVAL, st1, s1, none, none⟩
      else if file_test_stream_version info.version ≠ 0 then ⟨ENOTSUP, st1, s1, none, none⟩
      else
        let st2 := { st1 with stream_version := info.version }
        match read_block info.name_size s1 with
        | none => ⟨errno0, st2, s1, none, none⟩
        | some (nm, s2) =>
          match read_block info.date_size s2 with
          | none => ⟨errno0, st2, s2, nm, none⟩
          | some (dt, s3) => ⟨0, { st2 with info_valid := true }, s3, nm, dt⟩

/-! file_read: the read pump. -/

/-- Oracles for the externals of the read pump: the value of the process-wide
cancellation flag at its i-th poll, and the result of the i-th packetstream
operation (ps_packet_open / write / dma / close, counted in call order;
0 means success). -/
structure read_env where
  cancel : Nat → Bool
  ps : Nat → Nat

inductive loop_exit where
  | frames_done
  | eof_header
  | failed (e : Nat)
  | no_fuel
deriving DecidableEq

structure loop_out where
  forwarded : List (Nat × List Nat)
  polls : Nat
  psIdx : Nat
  exit : loop_exit
deriving DecidableEq

/-- Reading the per-frame length and tag fields in the order dictated by the
detected stream version: the legacy version 0x03 stores the one-byte message
header first and the 8-byte size second, every other (i.e. the current)
version stores the size first. -/
def read_frame_header (ver : Nat) (s : List Nat) : Option (Nat × Nat × List Nat) :=
  if ver = 0x03 then
    match fread 1 s with
    | none => none
    | some (h, s1) =>
      match fread 8 s1 with
      | none => none
      | some (sz, s2) => some (h.headD 0, ledec sz, s2)
  else
    match fread 8 s with
    | none => none
    | some (sz, s1) =>
      match fread 1 s1 with
      | none => none
      | some (h, s2) => some (h.headD 0, ledec sz, s2)

/-- The do/while loop of file_read.  A frame is recorded as forwarded when its
ps_packet_close succeeds.  The payload read fread(dma, packet_size, 1) fails
both on a short file and when packet_size is zero, going to read_fail
(EBADMSG).  The cancellation flag is polled in the while condition, after the
short-circuiting close-tag test.  The fuel argument only bounds the recursion;
file_read supplies one more unit than the file length, which is never
exhausted because every iteration consumes at least nine bytes. -/
def file_read_loop (ver : Nat) (env : read_env) :
    Nat → List Nat → Nat → Nat → List (Nat × List Nat) → loop_out
  | 0, _, psIdx, polls, acc => ⟨acc, polls, psIdx, .no_fuel⟩
  | fuel + 1, s, psIdx, polls, acc =>
    match read_frame_header ver s with
    | none => ⟨acc, polls, psIdx, .eof_header⟩
    | some (htype, packet_size, s2) =>
      if env.ps psIdx ≠ 0 then ⟨acc, polls, psIdx + 1, .failed (env.ps psIdx)⟩
      else if env.ps (psIdx + 1) ≠ 0 then ⟨acc, polls, psIdx + 2, .failed (env.ps (psIdx + 1))⟩
      else if env.ps (psIdx + 2) ≠ 0 then ⟨acc, polls, psIdx + 3, .failed (env.ps (psIdx + 2))⟩
      else
        match fread packet_size s2 with
        | none => ⟨acc, polls, psIdx + 3, .failed EBADMSG⟩
        | some (payload, s3) =>
          if env.ps (psIdx + 3) ≠ 0 then ⟨acc, polls, psIdx + 4, .failed (env.ps (psIdx + 3))⟩
          else
            if htype = GLC_MESSAGE_CLOSE then
              ⟨acc ++ [(htype, payload)], polls, psIdx + 4, .frames_done⟩
            else if env.cancel polls then
              ⟨acc ++ [(htype, payload)], polls + 1, psIdx + 4, .frames_done⟩
            else
              file_read_loop ver env fuel s3 (psIdx + 4) (polls + 1) (acc ++ [(htype, payload)])

structure read_out where
  ret : Nat
  st : file_s
  forwarded : List (Nat × List Nat)
  polls : Nat
  ueof_logged : Bool
  err_logged : Bool
  buffer_cancelled : Bool
deriving DecidableEq

def file_read (st : file_s) (env : read_env) (s : List Nat) : read_out :=
  if !st.handle || !st.reading then ⟨EAGAIN, st, [], 0, false, false, false⟩
  else if !st.info_read then ⟨EAGAIN, st, [], 0, false, false, false⟩
  else if !st.info_valid then
    ⟨EINVAL, { st with info_read := false }, [], 0, false, false, false⟩
  else
    let lo := file_read_loop st.stream_version env (s.length + 1) s 0 0 []
    let stf := { st with info_read := false, info_valid := false }
    match lo.exit with
    | .frames_done => ⟨0, stf, lo.forwarded, lo.polls, false, false, false⟩
    | .eof_header =>
      let fwd :=
        if env.ps lo.psIdx = 0 ∧ env.ps (lo.psIdx + 1) = 0 ∧ env.ps (lo.psIdx + 2) = 0 then
          lo.forwarded ++ [(GLC_MESSAGE_CLOSE, ([] : List Nat))]
        else lo.forwarded
      ⟨0, stf, fwd, lo.polls, true, false, false⟩
    | .failed e =>
      if e = EINTR then ⟨0, stf, lo.forwarded, lo.polls, false, false, false⟩
      else ⟨e, stf, lo.forwarded, lo.polls, false, true, true⟩
    | .no_fuel => ⟨0, stf, lo.forwarded, lo.polls, false, false, false⟩

/-! The write side: file_write_info, file_write_message, file_write_eof and
the write-pump read callback. -/

structure write_out where
  ret : Nat
  st : file_s
  written : List Nat
  flushed : Bool
deriving DecidableEq

def file_write_info (st : file_s) (info : glc_stream_info_t) (name date : List Nat)
    (errno0 : Nat) : write_out :=
  if !st.handle || st.running || !st.writing then ⟨EAGAIN, st, [], false⟩
  else
    let w1 := encode_stream_info info
    if info.name_size = 0 then ⟨errno0, st, w1, false⟩
    else
      let w2 := w1 ++ name.take info.name_size
      if info.date_size = 0 then ⟨errno0, st, w2, false⟩
      else
        let w3 := w2 ++ date.take info.date_size
        ⟨0, { st with info_written := true }, w3, st.sync⟩

/-- file_write_message: the 8-byte size, the one-byte header and, when the
size is positive, the message body.  All three fwrite calls have a nonzero
size here (the body write is guarded by message_size > 0), so against the
unbounded-file OS model the function always succeeds. -/
def file_write_message (htype : Nat) (message : List Nat) (message_size : Nat) :
    Nat × List Nat :=
  let w1 := le64 message_size ++ [htype]
  (0, if 0 < message_size then w1 ++ message.take message_size else w1)

def file_write_eof (st : file_s) : Nat × List Nat :=
  if !st.handle || st.running || !st.writing then (EAGAIN, [])
  else file_write_message GLC_MESSAGE_CLOSE [] 0

structure wcb_out where
  ret : Nat
  st : file_s
  written : List Nat
  callback_events : List (List Nat × Bool)
  submitted : List (Nat × List Nat)
deriving DecidableEq

/-- file_read_callback, the write pump body.  Every message is first handed
to the state tracker.  A callback request is never written: when a callback
hook is installed, FILE_RUNNING is cleared, the hook is invoked with the
request data (the recorded event carries the value of the running bit during
the call), and FILE_RUNNING is set again.  A container message is written
verbatim; any other message is wrapped as size, header, body, where the body
fwrite has size read_size and hence fails (returning the current errno) when
the message is empty. -/
def file_read_callback (st : file_s) (htype : Nat) (read_data : List Nat)
    (errno0 : Nat) : wcb_out :=
  let sub := [(htype, read_data)]
  if htype = GLC_CALLBACK_REQUEST then
    if st.has_callback then
      ⟨0, { st with running := true }, [], [(read_data, false)], sub⟩
    else ⟨0, st, [], [], sub⟩
  else if htype = GLC_MESSAGE_CONTAINER then
    let csize := ledec (read_data.take 8)
    ⟨0, st, read_data.take (GLC_CONTAINER_MESSAGE_HEADER_SIZE + csize), [], sub⟩
  else
    if read_data.length = 0 then ⟨errno0, st, le64 read_data.length ++ [htype], [], sub⟩
    else ⟨0, st, le64 read_data.length ++ [htype] ++ read_data, [], sub⟩

/-! file_set_target: the write-attach path. -/

/-- Results the OS would give to the calls file_set_target makes: for each
fallible call either none (success) or some errno.  st_mode is the mode
fstat reports.  The lseek and ftruncate entries record what those calls
would return; the code ignores them. -/
structure os_env where
  fstat_err : Option Nat
  st_mode : Nat
  fchmod_err : Option Nat
  fcntl_err : Option Nat
  lseek_err : Option Nat
  ftruncate_err : Option Nat
  fdopen_err : Option Nat

inductive os_call where
  | fstat_call
  | fchmod_call (mode : Nat)
  | fcntl_call (cmd ltype offset whence len : Nat)
  | lseek_call (offset whence : Nat)
  | ftruncate_call (len : Nat)
  | fdopen_call
deriving DecidableEq

/-- lock_reg builds a struct flock from its arguments and issues fcntl. -/
def lock_reg (cmd ltype offset whence len : Nat) : os_call :=
  .fcntl_call cmd ltype offset whence len

def write_lock (offset whence len : Nat) : os_call :=
  lock_reg F_SETLK F_WRLCK offset whence len

def lockfile : os_call := write_lock 0 SEEK_SET 0

structure target_out where
  ret : Nat
  st : file_s
  calls : List os_call
deriving DecidableEq

/-- The mode installed by the fchmod step: group-execute cleared (the
complement of S_IXGRP over the 32-bit mode_t) and set-group-ID set. -/
def chmod_mode (mode : Nat) : Nat :=
  Nat.lor (Nat.land mode 0xFFFFFFF7) S_ISGID

def file_set_target (st : file_s) (env : os_env) : target_out :=
  if st.handle then ⟨EBUSY, st, []⟩
  else
    match env.fstat_err with
    | some e => ⟨e, st, [.fstat_call]⟩
    | none =>
      match env.fchmod_err with
      | some e => ⟨e, st, [.fstat_call, .fchmod_call (chmod_mode env.st_mode)]⟩
      | none =>
        match env.fcntl_err with
        | some e => ⟨e, st, [.fstat_call, .fchmod_call (chmod_mode env.st_mode), lockfile]⟩
        | none =>
          match env.fdopen_err with
          | some e =>
            ⟨e, st,
              [.fstat_call, .fchmod_call (chmod_mode env.st_mode), lockfile,
                .lseek_call 0 SEEK_SET, .ftruncate_call 0, .fdopen_call]⟩
          | none =>
            ⟨0, { st with handle := true, writing := true },
              [.fstat_call, .fchmod_call (chmod_mode env.st_mode), lockfile,
                .lseek_call 0 SEEK_SET, .ftruncate_call 0, .fdopen_call]⟩

/-! Frame encoders used to state properties of whole files. -/

def encode_frame (ver : Nat) (t : Nat) (p : List Nat) : List Nat :=
  if ver = 0x03 then t :: (le64 p.length ++ p) else le64 p.length ++ t :: p

def encode_frames (ver : Nat) : List (Nat × List Nat) → List Nat
  | [] => []
  | (t, p) :: fs => encode_frame ver t p ++ encode_frames ver fs

/-! Concrete states and environments used by the evaluation theorems. -/

/-- A read-attached controller whose stream info has been read and validated
with the current stream version. -/
def st_read2 : file_s :=
  ⟨true, true, false, false, false, true, true, false, GLC_STREAM_VERSION, false⟩

/-- A read-attached controller with no info read yet. -/
def st_read0 : file_s :=
  ⟨true, true, false, false, false, false, false, false, 0, false⟩

/-- A write-attached controller. -/
def st_write0 : file_s :=
  ⟨true, false, true, false, false, false, false, false, 0, false⟩

/-- A write-attached controller whose pump is running and which has a
callback hook installed. -/
def st_pump : file_s :=
  ⟨true, false, true, true, true, false, false, false, 0, true⟩

/-- The all-success external environment: cancellation never set, every
packetstream operation succeeds. -/
def env_ok : read_env := ⟨fun _ => false, fun _ => 0⟩

/-- A stream info header with the current version, a one-byte name block and
a one-byte date block. -/
def info_v2 : glc_stream_info_t :=
  ⟨GLC_SIGNATURE, GLC_STREAM_VERSION, [0, 0, 0, 0, 0, 0, 0, 0], 0, 0, 1, 1⟩

/-- The bytes produced by a minimal write session: stream info, one picture
frame pushed through the write pump, and the end-of-stream marker. -/
def session_bytes : List Nat :=
  (file_write_info st_write0 info_v2 [0] [0] 0).written ++
    (file_read_callback st_pump 0x02 [170] 0).written ++
    (file_write_eof st_write0).2

/-- A fully detached controller. -/
def st_none : file_s :=
  ⟨false, false, false, false, false, false, false, false, 0, false⟩

/-- A write-attached controller that has already written its stream info. -/
def st_write_iw : file_s :=
  ⟨true, false, true, false, true, false, false, false, 0, false⟩

/-- An environment whose every packetstream operation fails with errno 5. -/
def env_fail5 : read_env := ⟨fun _ => false, fun _ => 5⟩

/-- An environment whose every packetstream operation fails with EINTR. -/
def env_fail_intr : read_env := ⟨fun _ => false, fun _ => EINTR⟩

/-- An environment in which the cancellation flag is set from the start. -/
def env_cancel1 : read_env := ⟨fun _ => true, fun _ => 0⟩

/-- An OS in which every call made by the attach path succeeds. -/
def os_ok : os_env := ⟨none, 420, none, none, none, none, none⟩

/-- An OS in which only the ftruncate call fails (with errno 5). -/
def os_trunc_fail : os_env := ⟨none, 420, none, none, none, some 5, none⟩

/-- A 32-byte stream info header whose signature does not match GLC_SIGNATURE. -/
def hdr_badmagic : List Nat :=
  encode_stream_info ⟨0, GLC_STREAM_VERSION, [0, 0, 0, 0, 0, 0, 0, 0], 0, 0, 0, 0⟩

/-- A 32-byte stream info header with a good signature and unsupported version 5. -/
def hdr_badver : List Nat :=
  encode_stream_info ⟨GLC_SIGNATURE, 5, [0, 0, 0, 0, 0, 0, 0, 0], 0, 0, 0, 0⟩

/-- A 32-byte stream info header accepted by read-info. -/
def hdr_good : List Nat := encode_stream_info info_v2

/-- A read-attached controller with validated info for a legacy (0x03)
stream. -/
def st_read3 : file_s :=
  ⟨true, true, false, false, false, true, true, false, 0x03, false⟩

/-- An environment whose seventh packetstream operation (ps_packet_dma of
the second frame) fails with errno 5, all earlier ones succeeding. -/
def env_c2w : read_env := ⟨fun _ => false, fun j => if j < 6 then 0 else 5⟩

/-- An environment whose seventh packetstream operation fails with EINTR,
all earlier ones succeeding. -/
def env_c2w_intr : read_env := ⟨fun _ => false, fun j => if j < 6 then 0 else EINTR⟩

/-! Basic facts about the byte-level helpers. -/

theorem fread_short {n : Nat} {s : List Nat} (h : s.length < n) : fread n s = none := by
  unfold fread
  rcases Nat.eq_zero_or_pos n with h0 | h0
  · simp [h0]
  · have hn : ¬ n = 0 := by omega
    have hle : ¬ n ≤ s.length := by omega
    simp [hn, hle]

theorem fread_exact (a b : List Nat) (ha : 0 < a.length) :
    fread a.length (a ++ b) = some (a, b) := by
  unfold fread
  have h1 : ¬ a.length = 0 := by omega
  have h2 : a.length ≤ (a ++ b).length := by simp
  simp [h1, h2, List.take_left, List.drop_left]

theorem fread_one (x : Nat) (xs : List Nat) : fread 1 (x :: xs) = some ([x], xs) := by
  unfold fread
  have h2 : (1 : Nat) ≤ (x :: xs).length := by simp
  simp [h2]

theorem le_bytes_length (k n : Nat) : (le_bytes k n).length = k := by
  induction k generalizing n with
  | zero => rfl
  | succ k ih => simp [le_bytes, ih]

theorem le64_length (n : Nat) : (le64 n).length = 8 := le_bytes_length 8 n

theorem ledec_le_bytes (k n : Nat) : ledec (le_bytes k n) = n % 256 ^ k := by
  induction k generalizing n with
  | zero => simp [le_bytes, ledec, Nat.mod_one]
  | succ k ih =>
    simp only [le_bytes, ledec, ih]
    rw [pow_succ']
    exact Nat.mod_mul.symm

theorem ledec_le64 {n : Nat} (h : n < 2 ^ 64) : ledec (le64 n) = n := by
  have h8 : (256 : Nat) ^ 8 = 2 ^ 64 := by norm_num
  rw [le64, ledec_le_bytes, h8, Nat.mod_eq_of_lt h]

theorem read_frame_header_short {ver : Nat} {s : List Nat} (hs : s.length ≤ 8) :
    read_frame_header ver s = none := by
  by_cases hv : ver = 3
  · cases s with
    | nil =>
      have h1 : fread 1 ([] : List Nat) = none := fread_short (by simp)
      simp [read_frame_header, hv, h1]
    | cons x xs =>
      have h2 : fread 8 xs = none := fread_short (by
        simp only [List.length_cons] at hs; omega)
      simp [read_frame_header, hv, fread_one, h2]
  · by_cases h8 : s.length < 8
    · have h1 : fread 8 s = none := fread_short h8
      simp [read_frame_header, hv, h1]
    · have h8' : s.length = 8 := by omega
      have h1 : fread 8 s = some (s.take 8, s.drop 8) := by
        unfold fread
        simp [h8']
      have h2 : fread 1 (s.drop 8) = none := fread_short (by simp [h8'])
      simp [read_frame_header, hv, h1, h2]

theorem read_frame_header_encode {ver : Nat} (hv : ver = 2 ∨ ver = 3)
    (t : Nat) (p rest : List Nat) (hp64 : p.length < 2 ^ 64) :
    read_frame_header ver (encode_frame ver t p ++ rest) =
      some (t, p.length, p ++ rest) := by
  have hlen : (le64 p.length).length = 8 := le64_length _
  have h8 : ∀ y : List Nat, fread 8 (le64 p.length ++ y) = some (le64 p.length, y) := by
    intro y
    have h := fread_exact (le64 p.length) y (by rw [hlen]; omega)
    rwa [hlen] at h
  rcases hv with hv | hv
  · subst hv
    have hsplit : encode_frame 2 t p ++ rest = le64 p.length ++ (t :: (p ++ rest)) := by
      simp [encode_frame]
    rw [hsplit]
    simp [read_frame_header, h8, fread_one, ledec_le64 hp64]
  · subst hv
    have hsplit : encode_frame 3 t p ++ rest = t :: (le64 p.length ++ (p ++ rest)) := by
      simp [encode_frame]
    rw [hsplit]
    simp [read_frame_header, fread_one, h8, ledec_le64 hp64]

theorem encode_frame_length (ver t : Nat) (p : List Nat) :
    (encode_frame ver t p).length = 9 + p.length := by
  unfold encode_frame
  split <;> simp [le64_length] <;> omega

theorem length_le_encode_frames (ver : Nat) (fs : List (Nat × List Nat)) :
    fs.length ≤ (encode_frames ver fs).length := by
  induction fs with
  | nil => simp [encode_frames]
  | cons f fs ih =>
    obtain ⟨t, p⟩ := f
    simp only [encode_frames, List.length_append, List.length_cons, encode_frame_length]
    omega

/-! Stepping lemmas for the read-pump loop. -/

theorem file_read_loop_cons {ver : Nat} {env : read_env} {t : Nat} {p : List Nat}
    (rest : List Nat) (fuel psIdx polls : Nat) (acc : List (Nat × List Nat))
    (hv : ver = 2 ∨ ver = 3) (ht : ¬ t = GLC_MESSAGE_CLOSE)
    (hp : 0 < p.length) (hp64 : p.length < 2 ^ 64)
    (hps : ∀ j, env.ps j = 0) (hc : env.cancel polls = false) :
    file_read_loop ver env (fuel + 1) (encode_frame ver t p ++ rest) psIdx polls acc =
      file_read_loop ver env fuel rest (psIdx + 4) (polls + 1) (acc ++ [(t, p)]) := by
  have hrd := read_frame_header_encode hv t p rest hp64
  have hpl : fread p.length (p ++ rest) = some (p, rest) := fread_exact p rest hp
  simp [file_read_loop, hrd, hps, hpl, ht, hc]

theorem file_read_loop_cons_cancel {ver : Nat} {env : read_env} {t : Nat} {p : List Nat}
    (rest : List Nat) (fuel psIdx polls : Nat) (acc : List (Nat × List Nat))
    (hv : ver = 2 ∨ ver = 3) (ht : ¬ t = GLC_MESSAGE_CLOSE)
    (hp : 0 < p.length) (hp64 : p.length < 2 ^ 64)
    (hps : ∀ j, env.ps j = 0) (hc : env.cancel polls = true) :
    file_read_loop ver env (fuel + 1) (encode_frame ver t p ++ rest) psIdx polls acc =
      ⟨acc ++ [(t, p)], polls + 1, psIdx + 4, .frames_done⟩ := by
  have hrd := read_frame_header_encode hv t p rest hp64
  have hpl : fread p.length (p ++ rest) = some (p, rest) := fread_exact p rest hp
  simp [file_read_loop, hrd, hps, hpl, ht, hc]

theorem file_read_loop_eof_base {ver : Nat} {env : read_env} {s : List Nat}
    (fuel psIdx polls : Nat) (acc : List (Nat × List Nat)) (hs : s.length ≤ 8) :
    file_read_loop ver env (fuel + 1) s psIdx polls acc =
      ⟨acc, polls, psIdx, .eof_header⟩ := by
  simp [file_read_loop, read_frame_header_short hs]

theorem file_read_loop_eof {ver : Nat} {env : read_env}
    (hv : ver = 2 ∨ ver = 3) (hps : ∀ j, env.ps j = 0)
    (hcancel : ∀ i, env.cancel i = false) :
    ∀ (frames : List (Nat × List Nat)) (tail : List Nat) (fuel psIdx polls : Nat)
      (acc : List (Nat × List Nat)),
      (∀ f ∈ frames, f.1 ≠ GLC_MESSAGE_CLOSE ∧ 0 < f.2.length ∧ f.2.length < 2 ^ 64) →
      tail.length ≤ 8 → frames.length < fuel →
      file_read_loop ver env fuel (encode_frames ver frames ++ tail) psIdx polls acc =
        ⟨acc ++ frames, polls + frames.length, psIdx + 4 * frames.length, .eof_header⟩ := by
  intro frames
  induction frames with
  | nil =>
    intro tail fuel psIdx polls acc _ htail hfuel
    obtain ⟨fl, rfl⟩ : ∃ fl, fuel = fl + 1 := ⟨fuel - 1, by omega⟩
    rw [show encode_frames ver [] ++ tail = tail by simp [encode_frames]]
    rw [file_read_loop_eof_base fl psIdx polls acc htail]
    simp
  | cons f fs ih =>
    intro tail fuel psIdx polls acc hfr htail hfuel
    obtain ⟨t, p⟩ := f
    obtain ⟨fl, rfl⟩ : ∃ fl, fuel = fl + 1 := ⟨fuel - 1, by omega⟩
    have hf := hfr (t, p) (by simp)
    rw [show encode_frames ver ((t, p) :: fs) ++ tail
        = encode_frame ver t p ++ (encode_frames ver fs ++ tail) by
      simp [encode_frames]]
    rw [file_read_loop_cons (encode_frames ver fs ++ tail) fl psIdx polls acc
      hv hf.1 hf.2.1 hf.2.2 hps (hcancel polls)]
    rw [ih tail fl (psIdx + 4) (polls + 1) (acc ++ [(t, p)])
      (fun g hg => hfr g (by simp [hg])) htail
      (by simp only [List.length_cons] at hfuel; omega)]
    simp only [loop_out.mk.injEq, List.length_cons]
    refine ⟨by simp, by omega, by omega, trivial⟩

theorem file_read_loop_cancel {ver : Nat} {env : read_env}
    (hv : ver = 2 ∨ ver = 3) (hps : ∀ j, env.ps j = 0) :
    ∀ (k : Nat) (frames : List (Nat × List Nat)) (rest : List Nat)
      (fuel psIdx polls : Nat) (acc : List (Nat × List Nat)),
      (∀ f ∈ frames, f.1 ≠ GLC_MESSAGE_CLOSE ∧ 0 < f.2.length ∧ f.2.length < 2 ^ 64) →
      k < frames.length →
      (∀ i, i < k → env.cancel (polls + i) = false) →
      env.cancel (polls + k) = true →
      k < fuel →
      file_read_loop ver env fuel (encode_frames ver frames ++ rest) psIdx polls acc =
        ⟨acc ++ frames.take (k + 1), polls + (k + 1), psIdx + 4 * (k + 1), .frames_done⟩ := by
  intro k
  induction k with
  | zero =>
    intro frames rest fuel psIdx polls acc hfr hk hc1 hc2 hfuel
    cases frames with
    | nil => simp at hk
    | cons f fs =>
      obtain ⟨t, p⟩ := f
      obtain ⟨fl, rfl⟩ : ∃ fl, fuel = fl + 1 := ⟨fuel - 1, by omega⟩
      have hf := hfr (t, p) (by simp)
      rw [show encode_frames ver ((t, p) :: fs) ++ rest
          = encode_frame ver t p ++ (encode_frames ver fs ++ rest) by
        simp [encode_frames]]
      rw [file_read_loop_cons_cancel (encode_frames ver fs ++ rest) fl psIdx polls acc
        hv hf.1 hf.2.1 hf.2.2 hps (by simpa using hc2)]
      simp
  | succ k ih =>
    intro frames rest fuel psIdx polls acc hfr hk hc1 hc2 hfuel
    cases frames with
    | nil => simp at hk
    | cons f fs =>
      obtain ⟨t, p⟩ := f
      obtain ⟨fl, rfl⟩ : ∃ fl, fuel = fl + 1 := ⟨fuel - 1, by omega⟩
      have hf := hfr (t, p) (by simp)
      rw [show encode_frames ver ((t, p) :: fs) ++ rest
          = encode_frame ver t p ++ (encode_frames ver fs ++ rest) by
        simp [encode_frames]]
      rw [file_read_loop_cons (encode_frames ver fs ++ rest) fl psIdx polls acc
        hv hf.1 hf.2.1 hf.2.2 hps (by simpa using hc1 0 (by omega))]
      have hc1' : ∀ i, i < k → env.cancel (polls + 1 + i) = false := by
        intro i hi
        have h := hc1 (i + 1) (by omega)
        rwa [show polls + (i + 1) = polls + 1 + i by omega] at h
      have hc2' : env.cancel (polls + 1 + k) = true := by
        have h := hc2
        rwa [show polls + (k + 1) = polls + 1 + k by omega] at h
      rw [ih fs rest fl (psIdx + 4) (polls + 1) (acc ++ [(t, p)])
        (fun g hg => hfr g (by simp [hg]))
        (by simp only [List.length_cons] at hk; omega) hc1' hc2' (by omega)]
      simp only [loop_out.mk.injEq, List.take_succ_cons]
      refine ⟨by simp, by omega, by omega, trivial⟩

theorem file_read_loop_cons_at {ver : Nat} {env : read_env} {t : Nat} {p : List Nat}
    (rest : List Nat) (fuel psIdx polls : Nat) (acc : List (Nat × List Nat))
    (hv : ver = 2 ∨ ver = 3) (ht : ¬ t = GLC_MESSAGE_CLOSE)
    (hp : 0 < p.length) (hp64 : p.length < 2 ^ 64)
    (hps : ∀ j, j < 4 → env.ps (psIdx + j) = 0) (hc : env.cancel polls = false) :
    file_read_loop ver env (fuel + 1) (encode_frame ver t p ++ rest) psIdx polls acc =
      file_read_loop ver env fuel rest (psIdx + 4) (polls + 1) (acc ++ [(t, p)]) := by
  have h0 : env.ps psIdx = 0 := by simpa using hps 0 (by omega)
  have h1 : env.ps (psIdx + 1) = 0 := hps 1 (by omega)
  have h2 : env.ps (psIdx + 2) = 0 := hps 2 (by omega)
  have h3 : env.ps (psIdx + 3) = 0 := hps 3 (by omega)
  have hrd := read_frame_header_encode hv t p rest hp64
  have hpl : fread p.length (p ++ rest) = some (p, rest) := fread_exact p rest hp
  simp [file_read_loop, hrd, h0, h1, h2, h3, hpl, ht, hc]

/-- Running the loop across the first kk frames of the file, given that all
packetstream operations and cancellation polls they provoke succeed and are
unset respectively: the loop continues on the remaining frames with the
operation counter, poll counter and forwarded list advanced accordingly. -/
theorem file_read_loop_prefix {ver : Nat} {env : read_env} (hv : ver = 2 ∨ ver = 3) :
    ∀ (kk : Nat) (frames : List (Nat × List Nat)) (rest : List Nat)
      (fuel psIdx polls : Nat) (acc : List (Nat × List Nat)),
      (∀ f ∈ frames, f.1 ≠ GLC_MESSAGE_CLOSE ∧ 0 < f.2.length ∧ f.2.length < 2 ^ 64) →
      kk ≤ frames.length →
      (∀ j, j < 4 * kk → env.ps (psIdx + j) = 0) →
      (∀ i, i < kk → env.cancel (polls + i) = false) →
      file_read_loop ver env (fuel + kk) (encode_frames ver frames ++ rest) psIdx polls acc =
        file_read_loop ver env fuel (encode_frames ver (frames.drop kk) ++ rest)
          (psIdx + 4 * kk) (polls + kk) (acc ++ frames.take kk) := by
  intro kk
  induction kk with
  | zero =>
    intro frames rest fuel psIdx polls acc _ _ _ _
    simp
  | succ kk ih =>
    intro frames rest fuel psIdx polls acc hfr hk hps0 hc
    cases frames with
    | nil => simp at hk
    | cons f fs =>
      obtain ⟨t, p⟩ := f
      have hf := hfr (t, p) (by simp)
      rw [show encode_frames ver ((t, p) :: fs) ++ rest
          = encode_frame ver t p ++ (encode_frames ver fs ++ rest) by
        simp [encode_frames]]
      rw [show fuel + (kk + 1) = (fuel + kk) + 1 by omega]
      rw [file_read_loop_cons_at (encode_frames ver fs ++ rest) (fuel + kk) psIdx polls acc
        hv hf.1 hf.2.1 hf.2.2 (fun j hj => hps0 j (by omega))
        (by simpa using hc 0 (by omega))]
      rw [show ((t, p) :: fs).drop (kk + 1) = fs.drop kk from rfl,
        show ((t, p) :: fs).take (kk + 1) = (t, p) :: fs.take kk from rfl,
        show psIdx + 4 * (kk + 1) = psIdx + 4 + 4 * kk by omega,
        show polls + (kk + 1) = polls + 1 + kk by omega,
        show acc ++ ((t, p) :: fs.take kk) = (acc ++ [(t, p)]) ++ fs.take kk by simp]
      exact ih fs rest fuel (psIdx + 4) (polls + 1) (acc ++ [(t, p)])
        (fun g hg => hfr g (by simp [hg]))
        (by simp only [List.length_cons] at hk; omega)
        (fun j hj => by
          have h := hps0 (4 + j) (by omega)
          rwa [show psIdx + (4 + j) = psIdx + 4 + j by omega] at h)
        (fun i hi => by
          have h := hc (1 + i) (by omega)
          rwa [show polls + (1 + i) = polls + 1 + i by omega] at h)

/-- On a frame whose length and tag fields are readable, a failure of the
m-th destination-buffer operation of the iteration (open, write, dma or
close; m < 4) with a nonzero error makes the loop exit through the err path
carrying that error, forwarding nothing further. -/
theorem file_read_loop_fail_at {ver : Nat} {env : read_env} (t : Nat) {p : List Nat}
    (rest : List Nat) (fuel psIdx polls : Nat) (acc : List (Nat × List Nat)) (e m : Nat)
    (hv : ver = 2 ∨ ver = 3) (hp : 0 < p.length) (hp64 : p.length < 2 ^ 64)
    (hm : m < 4)
    (hps0 : ∀ j, j < m → env.ps (psIdx + j) = 0)
    (hpse : env.ps (psIdx + m) = e) (he0 : e ≠ 0) :
    ∃ pi, file_read_loop ver env (fuel + 1) (encode_frame ver t p ++ rest) psIdx polls acc =
      ⟨acc, polls, pi, .failed e⟩ := by
  have hrd := read_frame_header_encode hv t p rest hp64
  have hpl : fread p.length (p ++ rest) = some (p, rest) := fread_exact p rest hp
  interval_cases m
  · have h0 : env.ps psIdx = e := by simpa using hpse
    exact ⟨psIdx + 1, by simp [file_read_loop, hrd, h0, he0]⟩
  · have h0 : env.ps psIdx = 0 := by simpa using hps0 0 (by omega)
    exact ⟨psIdx + 2, by simp [file_read_loop, hrd, h0, hpse, he0]⟩
  · have h0 : env.ps psIdx = 0 := by simpa using hps0 0 (by omega)
    have h1 : env.ps (psIdx + 1) = 0 := hps0 1 (by omega)
    exact ⟨psIdx + 3, by simp [file_read_loop, hrd, h0, h1, hpse, he0]⟩
  · have h0 : env.ps psIdx = 0 := by simpa using hps0 0 (by omega)
    have h1 : env.ps (psIdx + 1) = 0 := hps0 1 (by omega)
    have h2 : env.ps (psIdx + 2) = 0 := hps0 2 (by omega)
    exact ⟨psIdx + 4, by simp [file_read_loop, hrd, h0, h1, h2, hpl, hpse, he0]⟩

/-! Claim C1. -/

/-- Claim C1 (amended): in a read session, a short read while reading the
per-frame length and tag fields synthesizes and forwards exactly one
close-tagged frame, logs the unexpected-EOF message, and file_read returns
success.  (As originally stated the claim also covered a short read inside
the payload; that case instead takes the read_fail path, returning EBADMSG
and cancelling the destination buffer — see the counterexample.) -/
theorem C1_amended (st : file_s) (env : read_env) (frames : List (Nat × List Nat))
    (tail : List Nat)
    (h1 : st.handle = true) (h2 : st.reading = true) (h3 : st.info_read = true)
    (h4 : st.info_valid = true)
    (hv : st.stream_version = 2 ∨ st.stream_version = 3)
    (hfr : ∀ f ∈ frames, f.1 ≠ GLC_MESSAGE_CLOSE ∧ 0 < f.2.length ∧ f.2.length < 2 ^ 64)
    (hps : ∀ j, env.ps j = 0) (hcancel : ∀ i, env.cancel i = false)
    (htail : tail.length ≤ 8) :
    (file_read st env (encode_frames st.stream_version frames ++ tail)).ret = 0 ∧
    (file_read st env (encode_frames st.stream_version frames ++ tail)).forwarded =
      frames ++ [(GLC_MESSAGE_CLOSE, [])] ∧
    (file_read st env (encode_frames st.stream_version frames ++ tail)).ueof_logged = true ∧
    (file_read st env (encode_frames st.stream_version frames ++ tail)).buffer_cancelled
      = false := by
  have hlen : frames.length <
      (encode_frames st.stream_version frames ++ tail).length + 1 := by
    have h := length_le_encode_frames st.stream_version frames
    simp only [List.length_append]
    omega
  have hloop := file_read_loop_eof hv hps hcancel frames tail
    ((encode_frames st.stream_version frames ++ tail).length + 1) 0 0 [] hfr htail hlen
  simp only [List.length_append] at hloop
  simp [file_read, h1, h2, h3, h4, hloop, hps]

/-- Claim C1 witness: a concrete truncated file whose last frame header is
cut short behaves as the amended claim states. -/
theorem C1_witness :
    (file_read st_read2 env_ok
        (encode_frames st_read2.stream_version [(2, [5])] ++ [7])).ret = 0 ∧
    (file_read st_read2 env_ok
        (encode_frames st_read2.stream_version [(2, [5])] ++ [7])).forwarded =
      [(2, [5])] ++ [(GLC_MESSAGE_CLOSE, [])] ∧
    (file_read st_read2 env_ok
        (encode_frames st_read2.stream_version [(2, [5])] ++ [7])).ueof_logged = true ∧
    (file_read st_read2 env_ok
        (encode_frames st_read2.stream_version [(2, [5])] ++ [7])).buffer_cancelled
      = false :=
  C1_amended st_read2 env_ok [(2, [5])] [7] rfl rfl rfl rfl (Or.inl rfl)
    (by decide) (fun _ => rfl) (fun _ => rfl) (by decide)

/-- Claim C1 counterexample: a file that ends inside a frame payload (header
announces five payload bytes, only three are present) does not synthesize a
close frame and does not return success; file_read returns EBADMSG and
cancels the destination buffer, contradicting the claim for payload-side
short reads. -/
theorem C1_counterexample :
    (file_read st_read2 env_ok (le64 5 ++ [2, 0, 0, 0])).ret = EBADMSG ∧
    (file_read st_read2 env_ok (le64 5 ++ [2, 0, 0, 0])).forwarded = [] ∧
    (file_read st_read2 env_ok (le64 5 ++ [2, 0, 0, 0])).ueof_logged = false ∧
    (file_read st_read2 env_ok (le64 5 ++ [2, 0, 0, 0])).buffer_cancelled = true ∧
    EBADMSG ≠ 0 := by decide

/-! Claim C2. -/

/-- Claim C2 (amended): in any read session (either stream version), when
any one of the per-frame destination-buffer operations (ps_packet_open,
ps_packet_write, ps_packet_dma or ps_packet_close — the m-th operation of
the k-th frame, for arbitrary k and m) fails with an error other than
EINTR, file_read logs the error, cancels the destination buffer and returns
that error; the frames committed before the failure are exactly the k
already-completed ones, and no close frame is forwarded (the err path
writes nothing to the buffer).  A destination-buffer failure with EINTR
(buffer already cancelled) ends the read with success, no cancel, and again
nothing forwarded beyond the completed frames. -/
theorem C2_amended (st : file_s) (env : read_env) (frames : List (Nat × List Nat))
    (rest : List Nat) (k m e : Nat)
    (h1 : st.handle = true) (h2 : st.reading = true) (h3 : st.info_read = true)
    (h4 : st.info_valid = true)
    (hv : st.stream_version = 2 ∨ st.stream_version = 3)
    (hfr : ∀ f ∈ frames, f.1 ≠ GLC_MESSAGE_CLOSE ∧ 0 < f.2.length ∧ f.2.length < 2 ^ 64)
    (hk : k < frames.length) (hm : m < 4)
    (hps0 : ∀ j, j < 4 * k + m → env.ps j = 0)
    (hpse : env.ps (4 * k + m) = e) (he0 : e ≠ 0)
    (hcancel : ∀ i, i < k → env.cancel i = false) :
    (e ≠ EINTR →
      (file_read st env (encode_frames st.stream_version frames ++ rest)).ret = e ∧
      (file_read st env (encode_frames st.stream_version frames ++ rest)).err_logged
        = true ∧
      (file_read st env (encode_frames st.stream_version frames ++ rest)).buffer_cancelled
        = true ∧
      (file_read st env (encode_frames st.stream_version frames ++ rest)).forwarded =
        frames.take k ∧
      (∀ f ∈ (file_read st env (encode_frames st.stream_version frames ++ rest)).forwarded,
        f.1 ≠ GLC_MESSAGE_CLOSE)) ∧
    (e = EINTR →
      (file_read st env (encode_frames st.stream_version frames ++ rest)).ret = 0 ∧
      (file_read st env (encode_frames st.stream_version frames ++ rest)).buffer_cancelled
        = false ∧
      (file_read st env (encode_frames st.stream_version frames ++ rest)).forwarded =
        frames.take k) := by
  have hlenf : frames.length ≤
      (encode_frames st.stream_version frames ++ rest).length := by
    have h := length_le_encode_frames st.stream_version frames
    simp only [List.length_append]
    omega
  obtain ⟨fl, hfl⟩ : ∃ fl,
      (encode_frames st.stream_version frames ++ rest).length + 1 = (fl + 1) + k :=
    ⟨(encode_frames st.stream_version frames ++ rest).length - k, by omega⟩
  obtain ⟨⟨t, p⟩, fs, hd⟩ : ∃ f fs, frames.drop k = f :: fs := by
    cases hdk : frames.drop k with
    | nil =>
      have hz : frames.length - k = 0 := by
        have h := congrArg List.length hdk
        simpa using h
      exact absurd hz (by omega)
    | cons f fs => exact ⟨f, fs, rfl⟩
  have hmem : (t, p) ∈ frames := by
    have h : (t, p) ∈ frames.drop k := by rw [hd]; simp
    exact List.drop_subset k frames h
  have hfp := hfr (t, p) hmem
  have hpre := file_read_loop_prefix hv k frames rest (fl + 1) 0 0 [] hfr (le_of_lt hk)
    (fun j hj => by simpa using hps0 j (by omega))
    (fun i hi => by simpa using hcancel i hi)
  obtain ⟨pi, hfex⟩ := file_read_loop_fail_at t
    (encode_frames st.stream_version fs ++ rest) fl (0 + 4 * k) (0 + k)
    ([] ++ frames.take k) e m hv hfp.2.1 hfp.2.2 hm
    (fun j hj => by
      have h := hps0 (4 * k + j) (by omega)
      rwa [show 4 * k + j = 0 + 4 * k + j by omega] at h)
    (by rw [show 0 + 4 * k + m = 4 * k + m by omega]; exact hpse)
    he0
  have hloop : file_read_loop st.stream_version env
      ((encode_frames st.stream_version frames ++ rest).length + 1)
      (encode_frames st.stream_version frames ++ rest) 0 0 [] =
      ⟨[] ++ frames.take k, 0 + k, pi, .failed e⟩ := by
    rw [hfl, hpre, hd]
    rw [show encode_frames st.stream_version ((t, p) :: fs) ++ rest
        = encode_frame st.stream_version t p ++ (encode_frames st.stream_version fs ++ rest)
      by simp [encode_frames]]
    exact hfex
  simp only [List.nil_append, Nat.zero_add, List.length_append] at hloop
  have hfwd : ∀ f ∈ frames.take k, f.1 ≠ GLC_MESSAGE_CLOSE := fun f hf =>
    (hfr f (List.take_subset k frames hf)).1
  constructor
  · intro hne
    refine ⟨by simp [file_read, h1, h2, h3, h4, hloop, hne],
      by simp [file_read, h1, h2, h3, h4, hloop, hne],
      by simp [file_read, h1, h2, h3, h4, hloop, hne],
      by simp [file_read, h1, h2, h3, h4, hloop, hne], ?_⟩
    have hf4 : (file_read st env
        (encode_frames st.stream_version frames ++ rest)).forwarded = frames.take k := by
      simp [file_read, h1, h2, h3, h4, hloop, hne]
    rw [hf4]
    exact hfwd
  · intro heq
    refine ⟨?_, ?_, ?_⟩ <;> simp [file_read, h1, h2, h3, h4, hloop, heq]

/-- Claim C2 witness: a legacy-version session with two frames in which the
third destination-buffer operation of the second frame (its ps_packet_dma)
fails — with errno 5 and with EINTR. -/
theorem C2_witness :
    ((file_read st_read3 env_c2w
        (encode_frames st_read3.stream_version [(2, [5]), (6, [7])] ++ [])).ret = 5 ∧
      (file_read st_read3 env_c2w
        (encode_frames st_read3.stream_version [(2, [5]), (6, [7])] ++ [])).err_logged
        = true ∧
      (file_read st_read3 env_c2w
        (encode_frames st_read3.stream_version
          [(2, [5]), (6, [7])] ++ [])).buffer_cancelled = true ∧
      (file_read st_read3 env_c2w
        (encode_frames st_read3.stream_version [(2, [5]), (6, [7])] ++ [])).forwarded =
        [(2, [5]), (6, [7])].take 1) ∧
    ((file_read st_read3 env_c2w_intr
        (encode_frames st_read3.stream_version [(2, [5]), (6, [7])] ++ [])).ret = 0 ∧
      (file_read st_read3 env_c2w_intr
        (encode_frames st_read3.stream_version
          [(2, [5]), (6, [7])] ++ [])).buffer_cancelled = false ∧
      (file_read st_read3 env_c2w_intr
        (encode_frames st_read3.stream_version [(2, [5]), (6, [7])] ++ [])).forwarded =
        [(2, [5]), (6, [7])].take 1) := by
  have ha := (C2_amended st_read3 env_c2w [(2, [5]), (6, [7])] [] 1 2 5
    rfl rfl rfl rfl (Or.inr rfl) (by decide) (by decide) (by decide)
    (fun j hj => by simp [env_c2w, show j < 6 by omega])
    (by decide) (by decide) (fun i _ => rfl)).1 (by decide)
  have hb := (C2_amended st_read3 env_c2w_intr [(2, [5]), (6, [7])] [] 1 2 EINTR
    rfl rfl rfl rfl (Or.inr rfl) (by decide) (by decide) (by decide)
    (fun j hj => by simp [env_c2w_intr, show j < 6 by omega])
    (by decide) (by decide) (fun i _ => rfl)).2 rfl
  exact ⟨⟨ha.1, ha.2.1, ha.2.2.1, ha.2.2.2.1⟩, hb.1, hb.2.1, hb.2.2⟩

/-- Claim C2 counterexample: a session whose first destination-buffer
operation fails with errno 5 returns that error and cancels the buffer, but
forwards no close frame at all, contradicting the claim that a close frame
is forwarded on every non-EOF I/O error. -/
theorem C2_counterexample :
    (file_read st_read2 env_fail5 (le64 1 ++ [2, 0])).ret = 5 ∧
    (file_read st_read2 env_fail5 (le64 1 ++ [2, 0])).forwarded = [] := by decide

/-! Claim C3. -/

/-- Claim C3 (amended): a failed read-info never sets the info-valid flag,
and a subsequent file_read does not read frames but returns an error.  A
short header read sets neither flag (the later file_read returns EAGAIN);
however a bad-magic or unsupported-version failure happens after the flags
word has already received FILE_INFO_READ, so the info-read flag IS set in
those cases (the later file_read then returns EINVAL without reading
frames). -/
theorem C3_amended (st : file_s) (s : List Nat) (errno0 : Nat)
    (h1 : st.handle = true) (h2 : st.reading = true)
    (h3 : st.info_read = false) (h4 : st.info_valid = false) :
    (s.length < 32 →
      (file_read_info st s errno0).ret = errno0 ∧
      (file_read_info st s errno0).st.info_read = false ∧
      (file_read_info st s errno0).st.info_valid = false ∧
      (∀ env s2, (file_read (file_read_info st s errno0).st env s2).ret = EAGAIN ∧
        (file_read (file_read_info st s errno0).st env s2).forwarded = [])) ∧
    (32 ≤ s.length →
      ((decode_stream_info (s.take 32)).signature ≠ GLC_SIGNATURE ∨
          file_test_stream_version (decode_stream_info (s.take 32)).version ≠ 0) →
      (file_read_info st s errno0).st.info_read = true ∧
      (file_read_info st s errno0).st.info_valid = false ∧
      ((decode_stream_info (s.take 32)).signature ≠ GLC_SIGNATURE →
        (file_read_info st s errno0).ret = EINVAL) ∧
      ((decode_stream_info (s.take 32)).signature = GLC_SIGNATURE →
        (file_read_info st s errno0).ret = ENOTSUP) ∧
      (∀ env s2, (file_read (file_read_info st s errno0).st env s2).ret = EINVAL ∧
        (file_read (file_read_info st s errno0).st env s2).forwarded = [])) := by
  constructor
  · intro hshort
    have hfr : fread 32 s = none := fread_short hshort
    have hout : file_read_info st s errno0 = ⟨errno0, st, s, none, none⟩ := by
      simp [file_read_info, h1, h2, hfr]
    refine ⟨by simp [hout], by simp [hout, h3], by simp [hout, h4], ?_⟩
    intro env s2
    constructor <;> simp [hout, file_read, h1, h2, h3]
  · intro hlong hrej
    have hfr : fread 32 s = some (s.take 32, s.drop 32) := by
      unfold fread
      simp [show ¬ (32 : Nat) = 0 by omega, hlong]
    by_cases hsig : (decode_stream_info (s.take 32)).signature = GLC_SIGNATURE
    · have hver : file_test_stream_version (decode_stream_info (s.take 32)).version ≠ 0 := by
        rcases hrej with h | h
        · exact absurd hsig h
        · exact h
      have hout : file_read_info st s errno0 =
          ⟨ENOTSUP, { st with info_read := true }, s.drop 32, none, none⟩ := by
        simp [file_read_info, h1, h2, hfr, hsig, hver]
      refine ⟨by simp [hout], by simp [hout, h4], by simp [hsig], by simp [hout], ?_⟩
      intro env s2
      constructor <;> simp [hout, file_read, h1, h2, h4]
    · have hout : file_read_info st s errno0 =
          ⟨EINVAL, { st with info_read := true }, s.drop 32, none, none⟩ := by
        simp [file_read_info, h1, h2, hfr, hsig]
      refine ⟨by simp [hout], by simp [hout, h4], by simp [hout], by simp [hsig], ?_⟩
      intro env s2
      constructor <;> simp [hout, file_read, h1, h2, h4]

/-- Claim C3 witness: a three-byte file (short header) leaves both flags
clear and a later file_read returns EAGAIN; a header with a bad signature
leaves info-read set, info-valid clear, returns EINVAL, and a later
file_read returns EINVAL. -/
theorem C3_witness :
    (file_read_info st_read0 [1, 2, 3] 9).ret = 9 ∧
    (file_read_info st_read0 [1, 2, 3] 9).st.info_read = false ∧
    (file_read_info st_read0 [1, 2, 3] 9).st.info_valid = false ∧
    (file_read (file_read_info st_read0 [1, 2, 3] 9).st env_ok []).ret = EAGAIN ∧
    (file_read_info st_read0 hdr_badmagic 9).st.info_read = true ∧
    (file_read_info st_read0 hdr_badmagic 9).st.info_valid = false ∧
    (file_read_info st_read0 hdr_badmagic 9).ret = EINVAL ∧
    (file_read (file_read_info st_read0 hdr_badmagic 9).st env_ok []).ret = EINVAL := by
  have ha := (C3_amended st_read0 [1, 2, 3] 9 rfl rfl rfl rfl).1 (by decide)
  have hb := (C3_amended st_read0 hdr_badmagic 9 rfl rfl rfl rfl).2 (by decide) (by decide)
  exact ⟨ha.1, ha.2.1, ha.2.2.1, (ha.2.2.2 env_ok []).1, hb.1, hb.2.1,
    hb.2.2.1 (by decide), (hb.2.2.2.2 env_ok []).1⟩

/-- Claim C3 counterexample: after read-info fails on a bad-magic header the
info-read flag is set, contradicting the claim that on any read-info failure
neither info flag is set. -/
theorem C3_counterexample :
    (file_read_info st_read0 hdr_badmagic 9).ret = EINVAL ∧
    (file_read_info st_read0 hdr_badmagic 9).st.info_read = true := by decide

/-! Claim C4. -/

/-- Claim C4 (amended): file_write_info returns the state error EAGAIN when
the controller is not attached for writing or is running — but it does NOT
check the info-written flag, so a repeated write-info in one session
succeeds again (see the counterexample).  When attached for writing, not
running, and the name and date blocks are nonempty, it serializes the fixed
header, then the name bytes, then the date bytes, in that order, reports a
flush exactly when sync mode is set, and sets the info-written flag.  (An
empty name or date block makes the corresponding fwrite of size zero return
zero, failing the call with the current errno value.) -/
theorem C4_amended (st : file_s) (info : glc_stream_info_t) (name date : List Nat)
    (errno0 : Nat) :
    ((st.handle = false ∨ st.running = true ∨ st.writing = false) →
      file_write_info st info name date errno0 = ⟨EAGAIN, st, [], false⟩) ∧
    (st.handle = true → st.running = false → st.writing = true →
      name.length = info.name_size → date.length = info.date_size →
      0 < info.name_size → 0 < info.date_size →
      (file_write_info st info name date errno0).ret = 0 ∧
      (file_write_info st info name date errno0).written =
        encode_stream_info info ++ name ++ date ∧
      (file_write_info st info name date errno0).flushed = st.sync ∧
      (file_write_info st info name date errno0).st = { st with info_written := true }) := by
  constructor
  · intro h
    rcases h with h | h | h <;> simp [file_write_info, h]
  · intro h1 h2 h3 hname hdate hn hd
    have hn' : ¬ info.name_size = 0 := by omega
    have hd' : ¬ info.date_size = 0 := by omega
    have htn : name.take info.name_size = name := by
      rw [← hname]
      exact List.take_length name
    have htd : date.take info.date_size = date := by
      rw [← hdate]
      exact List.take_length date
    simp [file_write_info, h1, h2, h3, hn', hd', htn, htd]

/-- Claim C4 witness: a controller that is read-attached (hence not
write-attached) gets the state error; a write-attached idle controller
serializes header, name and date in order and sets info-written. -/
theorem C4_witness :
    file_write_info st_read0 info_v2 [0] [0] 3 = ⟨EAGAIN, st_read0, [], false⟩ ∧
    (file_write_info st_write0 info_v2 [0] [0] 3).ret = 0 ∧
    (file_write_info st_write0 info_v2 [0] [0] 3).written =
      encode_stream_info info_v2 ++ [0] ++ [0] ∧
    (file_write_info st_write0 info_v2 [0] [0] 3).flushed = st_write0.sync ∧
    (file_write_info st_write0 info_v2 [0] [0] 3).st =
      { st_write0 with info_written := true } := by
  have ha := (C4_amended st_read0 info_v2 [0] [0] 3).1 (Or.inr (Or.inr rfl))
  have hb := (C4_amended st_write0 info_v2 [0] [0] 3).2 rfl rfl rfl (by decide) (by decide)
    (by decide) (by decide)
  exact ⟨ha, hb.1, hb.2.1, hb.2.2.1, hb.2.2.2⟩

/-- Claim C4 counterexample: a controller whose info-written flag is already
set is accepted again by file_write_info (return value 0, not a state
error), contradicting the claim that write-info fails when the info header
has already been written in this session. -/
theorem C4_counterexample :
    st_write_iw.info_written = true ∧
    (file_write_info st_write_iw info_v2 [0] [0] 7).ret = 0 ∧
    (file_write_info st_write_iw info_v2 [0] [0] 7).ret ≠ EAGAIN := by decide

/-! Claim C5. -/

/-- Claim C5 (code bug): evaluating the program on a minimal write-then-read
round trip.  The write session produces the stream info, one picture frame
pushed through the write pump, and the zero-length close frame from
write-eof; read-info accepts the file and file_read forwards the one written
frame identically, but then the payload read for the close frame is
fread(dma, 0, 1, f), which returns 0, so the loop takes the read_fail path:
file_read returns EBADMSG and cancels the destination buffer instead of
forwarding the close frame and returning success. -/
theorem C5_failing_eval :
    (file_write_info st_write0 info_v2 [0] [0] 0).ret = 0 ∧
    (file_read_callback st_pump 0x02 [170] 0).ret = 0 ∧
    (file_write_eof st_write0).1 = 0 ∧
    (file_read_info st_read0 session_bytes 0).ret = 0 ∧
    (file_read_info st_read0 session_bytes 0).st.info_valid = true ∧
    (file_read (file_read_info st_read0 session_bytes 0).st env_ok
        (file_read_info st_read0 session_bytes 0).rest).forwarded = [(0x02, [170])] ∧
    (file_read (file_read_info st_read0 session_bytes 0).st env_ok
        (file_read_info st_read0 session_bytes 0).rest).ret = EBADMSG ∧
    (file_read (file_read_info st_read0 session_bytes 0).st env_ok
        (file_read_info st_read0 session_bytes 0).rest).buffer_cancelled = true ∧
    EBADMSG ≠ 0 := by decide

/-! Claim C6. -/

theorem read_block_exact (b rest : List Nat) :
    read_block b.length (b ++ rest) =
      some ((if 0 < b.length then some b else none), rest) := by
  by_cases hb : 0 < b.length
  · simp [read_block, hb, fread_exact b rest hb]
  · have hnil : b = [] := List.eq_nil_of_length_eq_zero (by omega)
    subst hnil
    simp [read_block]

/-- Claim C6: read-info accepts a header (succeeds and sets info-valid)
exactly when its signature equals GLC_SIGNATURE and its version field is the
current GLC_STREAM_VERSION or the single legacy constant 0x03; a good
signature with any other version is rejected with ENOTSUP, a bad signature
with EINVAL, and in either rejection the info-valid flag is not set. -/
theorem C6_version_gate (st : file_s) (hdr name date : List Nat) (errno0 : Nat)
    (h1 : st.handle = true) (h2 : st.reading = true) (h4 : st.info_valid = false)
    (hh : hdr.length = 32)
    (hname : name.length = (decode_stream_info hdr).name_size)
    (hdate : date.length = (decode_stream_info hdr).date_size) :
    (((file_read_info st (hdr ++ name ++ date) errno0).ret = 0 ∧
        (file_read_info st (hdr ++ name ++ date) errno0).st.info_valid = true) ↔
      ((decode_stream_info hdr).signature = GLC_SIGNATURE ∧
        ((decode_stream_info hdr).version = GLC_STREAM_VERSION ∨
          (decode_stream_info hdr).version = 0x03))) ∧
    ((decode_stream_info hdr).signature = GLC_SIGNATURE →
      (decode_stream_info hdr).version ≠ GLC_STREAM_VERSION →
      (decode_stream_info hdr).version ≠ 0x03 →
      (file_read_info st (hdr ++ name ++ date) errno0).ret = ENOTSUP ∧
      (file_read_info st (hdr ++ name ++ date) errno0).st.info_valid = false) ∧
    ((decode_stream_info hdr).signature ≠ GLC_SIGNATURE →
      (file_read_info st (hdr ++ name ++ date) errno0).ret = EINVAL ∧
      (file_read_info st (hdr ++ name ++ date) errno0).st.info_valid = false) := by
  have hfr : fread 32 (hdr ++ (name ++ date)) = some (hdr, name ++ date) := by
    rw [← hh]
    exact fread_exact hdr (name ++ date) (by omega)
  by_cases hsig : (decode_stream_info hdr).signature = GLC_SIGNATURE
  · by_cases hver : (decode_stream_info hdr).version = GLC_STREAM_VERSION ∨
        (decode_stream_info hdr).version = 0x03
    · have hv0 : file_test_stream_version (decode_stream_info hdr).version = 0 := by
        unfold file_test_stream_version
        rcases hver with h | h <;> simp [h]
      have hbn : read_block (decode_stream_info hdr).name_size (name ++ date) =
          some ((if 0 < name.length then some name else none), date) := by
        rw [← hname]
        exact read_block_exact name date
      have hbd : read_block (decode_stream_info hdr).date_size date =
          some ((if 0 < date.length then some date else none), []) := by
        rw [← hdate, ← List.append_nil date]
        have h := read_block_exact date []
        simpa using h
      have hout : (file_read_info st (hdr ++ name ++ date) errno0).ret = 0 ∧
          (file_read_info st (hdr ++ name ++ date) errno0).st.info_valid = true := by
        constructor <;> simp [file_read_info, h1, h2, hfr, hsig, hv0, hbn, hbd]
      refine ⟨⟨fun _ => ⟨hsig, hver⟩, fun _ => hout⟩, ?_, ?_⟩
      · intro _ hv1 hv2
        exact absurd hver (by simp [hv1, hv2])
      · intro h
        exact absurd hsig h
    · have hvn : file_test_stream_version (decode_stream_info hdr).version ≠ 0 := by
        unfold file_test_stream_version
        push_neg at hver
        simp [hver.1, hver.2, ENOTSUP]
      have hout : (file_read_info st (hdr ++ name ++ date) errno0).ret = ENOTSUP ∧
          (file_read_info st (hdr ++ name ++ date) errno0).st.info_valid = false := by
        constructor <;> simp [file_read_info, h1, h2, hfr, hsig, hvn, h4]
      refine ⟨⟨fun h => ?_, fun h => absurd h.2 hver⟩,
        fun _ _ _ => hout, fun h => absurd hsig h⟩
      have h0 := h.1
      rw [hout.1] at h0
      exact absurd h0 (by decide)
  · have hout : (file_read_info st (hdr ++ name ++ date) errno0).ret = EINVAL ∧
        (file_read_info st (hdr ++ name ++ date) errno0).st.info_valid = false := by
      constructor <;> simp [file_read_info, h1, h2, hfr, hsig, h4]
    refine ⟨⟨fun h => ?_, fun h => absurd h.1 hsig⟩,
      fun h => absurd h hsig, fun _ => hout⟩
    have h0 := h.1
    rw [hout.1] at h0
    exact absurd h0 (by decide)

/-- Claim C6 witness: a good header with the current version is accepted; a
good-signature header with version 5 is rejected with ENOTSUP and info-valid
clear; a bad-signature header is rejected with EINVAL and info-valid clear. -/
theorem C6_witness :
    (file_read_info st_read0 (hdr_good ++ [0] ++ [0]) 9).ret = 0 ∧
    (file_read_info st_read0 (hdr_good ++ [0] ++ [0]) 9).st.info_valid = true ∧
    (file_read_info st_read0 (hdr_badver ++ [] ++ []) 9).ret = ENOTSUP ∧
    (file_read_info st_read0 (hdr_badver ++ [] ++ []) 9).st.info_valid = false ∧
    (file_read_info st_read0 (hdr_badmagic ++ [] ++ []) 9).ret = EINVAL ∧
    (file_read_info st_read0 (hdr_badmagic ++ [] ++ []) 9).st.info_valid = false := by
  have ha := (C6_version_gate st_read0 hdr_good [0] [0] 9 rfl rfl rfl (by decide)
    (by decide) (by decide)).1.mpr (by decide)
  have hb := (C6_version_gate st_read0 hdr_badver [] [] 9 rfl rfl rfl (by decide)
    (by decide) (by decide)).2.1 (by decide) (by decide) (by decide)
  have hc := (C6_version_gate st_read0 hdr_badmagic [] [] 9 rfl rfl rfl (by decide)
    (by decide) (by decide)).2.2 (by decide)
  exact ⟨ha.1, ha.2, hb.1, hb.2, hc.1, hc.2⟩

/-! Claim C7. -/

/-- Claim C7: a callback-request frame handled by the write pump writes
nothing to the file, invokes the installed callback exactly once with the
request data, with the running flag observed false for the duration of the
call, and leaves the running flag true immediately afterwards. -/
theorem C7_callback (st : file_s) (data : List Nat) (errno0 : Nat)
    (hcb : st.has_callback = true) :
    (file_read_callback st GLC_CALLBACK_REQUEST data errno0).ret = 0 ∧
    (file_read_callback st GLC_CALLBACK_REQUEST data errno0).written = [] ∧
    (file_read_callback st GLC_CALLBACK_REQUEST data errno0).callback_events =
      [(data, false)] ∧
    (file_read_callback st GLC_CALLBACK_REQUEST data errno0).st =
      { st with running := true } := by
  simp [file_read_callback, hcb]

/-- Claim C7 witness: the running pump state with a callback installed. -/
theorem C7_witness :
    (file_read_callback st_pump GLC_CALLBACK_REQUEST [3] 0).ret = 0 ∧
    (file_read_callback st_pump GLC_CALLBACK_REQUEST [3] 0).written = [] ∧
    (file_read_callback st_pump GLC_CALLBACK_REQUEST [3] 0).callback_events =
      [([3], false)] ∧
    (file_read_callback st_pump GLC_CALLBACK_REQUEST [3] 0).st =
      { st_pump with running := true } :=
  C7_callback st_pump [3] 0 rfl

/-! Claim C8. -/

/-- Claim C8 (amended): attach-write returns EBUSY when a handle is already
attached; otherwise it performs fstat, then fchmod with group-execute
cleared and set-group-ID set, then the non-blocking exclusive write lock
(fcntl F_SETLK with F_WRLCK over the whole file — the non-waiting command,
distinct from F_SETLKW), then lseek and ftruncate, then wraps the descriptor
as a write handle.  A failure of fstat, fchmod, the lock acquisition or the
fdopen wrap aborts the attach with that OS error; however the results of
lseek and ftruncate are ignored, so a failing truncate does NOT abort the
attach (see the counterexample). -/
theorem C8_amended (st : file_s) (env : os_env) :
    (st.handle = true → file_set_target st env = ⟨EBUSY, st, []⟩) ∧
    (st.handle = false →
      (∀ e, env.fstat_err = some e →
        file_set_target st env = ⟨e, st, [.fstat_call]⟩) ∧
      (env.fstat_err = none → ∀ e, env.fchmod_err = some e →
        file_set_target st env =
          ⟨e, st, [.fstat_call, .fchmod_call (chmod_mode env.st_mode)]⟩) ∧
      (env.fstat_err = none → env.fchmod_err = none → ∀ e, env.fcntl_err = some e →
        file_set_target st env =
          ⟨e, st, [.fstat_call, .fchmod_call (chmod_mode env.st_mode), lockfile]⟩) ∧
      (env.fstat_err = none → env.fchmod_err = none → env.fcntl_err = none →
        ∀ e, env.fdopen_err = some e →
        file_set_target st env =
          ⟨e, st, [.fstat_call, .fchmod_call (chmod_mode env.st_mode), lockfile,
            .lseek_call 0 SEEK_SET, .ftruncate_call 0, .fdopen_call]⟩) ∧
      (env.fstat_err = none → env.fchmod_err = none → env.fcntl_err = none →
        env.fdopen_err = none →
        file_set_target st env =
          ⟨0, { st with handle := true, writing := true },
            [.fstat_call, .fchmod_call (chmod_mode env.st_mode), lockfile,
              .lseek_call 0 SEEK_SET, .ftruncate_call 0, .fdopen_call]⟩) ∧
      lockfile = .fcntl_call F_SETLK F_WRLCK 0 SEEK_SET 0 ∧
      F_SETLK ≠ F_SETLKW) := by
  constructor
  · intro h
    simp [file_set_target, h]
  · intro h
    refine ⟨?_, ?_, ?_, ?_, ?_, rfl, by decide⟩
    · intro e he
      simp [file_set_target, h, he]
    · intro hs e he
      simp [file_set_target, h, hs, he]
    · intro hs hc e he
      simp [file_set_target, h, hs, hc, he]
    · intro hs hc hl e he
      simp [file_set_target, h, hs, hc, hl, he]
    · intro hs hc hl hd
      simp [file_set_target, h, hs, hc, hl, hd]

/-- Claim C8 witness: the busy case and the all-success attach, including
the exact non-blocking lock request. -/
theorem C8_witness :
    file_set_target st_write0 os_ok = ⟨EBUSY, st_write0, []⟩ ∧
    file_set_target st_none os_ok =
      ⟨0, { st_none with handle := true, writing := true },
        [.fstat_call, .fchmod_call (chmod_mode os_ok.st_mode), lockfile,
          .lseek_call 0 SEEK_SET, .ftruncate_call 0, .fdopen_call]⟩ ∧
    lockfile = .fcntl_call F_SETLK F_WRLCK 0 SEEK_SET 0 := by
  have ha := (C8_amended st_write0 os_ok).1 rfl
  have hb := (C8_amended st_none os_ok).2 rfl
  exact ⟨ha, hb.2.2.2.2.1 rfl rfl rfl rfl, hb.2.2.2.2.2.1⟩

/-- Claim C8 counterexample: when only the ftruncate step fails (errno 5),
the attach still succeeds (returns 0 and attaches the handle), contradicting
the claim that the first failing step among stat, chmod, lock, truncate and
wrap aborts the attach with the OS error. -/
theorem C8_counterexample :
    os_trunc_fail.ftruncate_err = some 5 ∧
    (file_set_target st_none os_trunc_fail).ret = 0 ∧
    (file_set_target st_none os_trunc_fail).st.handle = true ∧
    (file_set_target st_none os_trunc_fail).ret ≠ 5 := by decide

/-! Claim C9. -/

/-- Claim C9 (amended): when the cancellation flag is first observed set at
the k-th poll, the read loop stops right after the current (k+1-th) frame,
file_read returns success, forwards exactly the completed frames with no
synthetic close frame, and the flag was polled exactly once per completed
frame.  (As originally stated the per-completed-frame poll count is not
universal: a completed close-tagged frame ends the loop through the
short-circuited while condition without a poll — see the counterexample.) -/
theorem C9_amended (st : file_s) (env : read_env) (frames : List (Nat × List Nat))
    (rest : List Nat) (k : Nat)
    (h1 : st.handle = true) (h2 : st.reading = true) (h3 : st.info_read = true)
    (h4 : st.info_valid = true)
    (hv : st.stream_version = 2 ∨ st.stream_version = 3)
    (hfr : ∀ f ∈ frames, f.1 ≠ GLC_MESSAGE_CLOSE ∧ 0 < f.2.length ∧ f.2.length < 2 ^ 64)
    (hps : ∀ j, env.ps j = 0)
    (hk : k < frames.length)
    (hc1 : ∀ i, i < k → env.cancel i = false) (hc2 : env.cancel k = true) :
    (file_read st env (encode_frames st.stream_version frames ++ rest)).ret = 0 ∧
    (file_read st env (encode_frames st.stream_version frames ++ rest)).forwarded =
      frames.take (k + 1) ∧
    (file_read st env (encode_frames st.stream_version frames ++ rest)).polls =
      (file_read st env (encode_frames st.stream_version frames ++ rest)).forwarded.length ∧
    (file_read st env (encode_frames st.stream_version frames ++ rest)).ueof_logged
      = false ∧
    (file_read st env (encode_frames st.stream_version frames ++ rest)).buffer_cancelled
      = false ∧
    (∀ m ∈ (file_read st env (encode_frames st.stream_version frames ++ rest)).forwarded,
      m.1 ≠ GLC_MESSAGE_CLOSE) := by
  have hkf : k < (encode_frames st.stream_version frames ++ rest).length + 1 := by
    have h := length_le_encode_frames st.stream_version frames
    simp only [List.length_append]
    omega
  have hloop := file_read_loop_cancel hv hps k frames rest
    ((encode_frames st.stream_version frames ++ rest).length + 1) 0 0 [] hfr hk
    (fun i hi => by simpa using hc1 i hi) (by simpa using hc2) hkf
  simp only [List.length_append] at hloop
  have htake : (frames.take (k + 1)).length = k + 1 := by
    simp only [List.length_take]
    omega
  refine ⟨?_, ?_, ?_, ?_, ?_, ?_⟩ <;>
    simp [file_read, h1, h2, h3, h4, hloop, htake]
  intro a b hm
  exact (hfr (a, b) (List.take_subset (k + 1) frames hm)).1

/-- Claim C9 witness: with the cancellation flag set from the start and two
non-close frames on file, the loop forwards exactly the first frame, polls
the flag exactly once, returns success and forwards no synthetic close. -/
theorem C9_witness :
    (file_read st_read2 env_cancel1
        (encode_frames st_read2.stream_version [(2, [5]), (3, [6])] ++ [])).ret = 0 ∧
    (file_read st_read2 env_cancel1
        (encode_frames st_read2.stream_version [(2, [5]), (3, [6])] ++ [])).forwarded =
      [(2, [5]), (3, [6])].take 1 ∧
    (file_read st_read2 env_cancel1
        (encode_frames st_read2.stream_version [(2, [5]), (3, [6])] ++ [])).polls = 1 := by
  have h := C9_amended st_read2 env_cancel1 [(2, [5]), (3, [6])] [] 0 rfl rfl rfl rfl
    (Or.inl rfl) (by decide) (fun _ => rfl) (by decide)
    (fun i hi => absurd hi (by omega)) rfl
  refine ⟨h.1, h.2.1, ?_⟩
  rw [h.2.2.1, h.2.1]
  decide

/-- Claim C9 counterexample: a file whose first frame is close-tagged with a
one-byte payload completes exactly one frame, yet the cancellation flag is
polled zero times (the while condition short-circuits on the close tag),
contradicting the claim that the flag is polled exactly once per completed
frame. -/
theorem C9_counterexample :
    (file_read st_read2 env_ok (le64 1 ++ [1, 9])).ret = 0 ∧
    (file_read st_read2 env_ok (le64 1 ++ [1, 9])).forwarded.length = 1 ∧
    (file_read st_read2 env_ok (le64 1 ++ [1, 9])).polls = 0 ∧
    (0 : Nat) ≠ 1 := by decide

/-! Claim C10. -/

/-- Claim C10: every return of file_read on an attached read source leaves
both the info-read and info-valid flags clear (the states reachable in a
session satisfy the invariant that info-valid implies info-read), so an
immediately following file_read, with any environment and file contents,
returns the state error EAGAIN and forwards nothing. -/
theorem C10_flags (st : file_s) (env : read_env) (s : List Nat)
    (h1 : st.handle = true) (h2 : st.reading = true)
    (hinv : st.info_valid = true → st.info_read = true) :
    (file_read st env s).st.info_read = false ∧
    (file_read st env s).st.info_valid = false ∧
    (file_read st env s).st.handle = true ∧
    (file_read st env s).st.reading = true ∧
    (∀ env2 s2, (file_read (file_read st env s).st env2 s2).ret = EAGAIN ∧
      (file_read (file_read st env s).st env2 s2).forwarded = []) := by
  have hmain : (file_read st env s).st.info_read = false ∧
      (file_read st env s).st.info_valid = false ∧
      (file_read st env s).st.handle = true ∧
      (file_read st env s).st.reading = true := by
    by_cases h3 : st.info_read = true
    · by_cases h4 : st.info_valid = true
      · cases hlo : (file_read_loop st.stream_version env (s.length + 1) s 0 0 []).exit with
        | failed e =>
          by_cases he : e = EINTR <;>
            simp [file_read, h1, h2, h3, h4, hlo, he]
        | frames_done => simp [file_read, h1, h2, h3, h4, hlo]
        | eof_header => simp [file_read, h1, h2, h3, h4, hlo]
        | no_fuel => simp [file_read, h1, h2, h3, h4, hlo]
      · have h4' : st.info_valid = false := by
          cases hx : st.info_valid
          · rfl
          · exact absurd hx h4
        simp [file_read, h1, h2, h3, h4']
    · have h3' : st.info_read = false := by
        cases hx : st.info_read
        · rfl
        · exact absurd hx h3
      have h4' : st.info_valid = false := by
        cases hx : st.info_valid
        · rfl
        · exact absurd (hinv hx) h3
      simp [file_read, h1, h2, h3', h4']
  refine ⟨hmain.1, hmain.2.1, hmain.2.2.1, hmain.2.2.2, ?_⟩
  intro env2 s2
  generalize hst2 : (file_read st env s).st = stp at hmain ⊢
  constructor <;>
    simp [file_read, hmain.1, hmain.2.2.1, hmain.2.2.2]

/-- Claim C10 witness: after a read session completes on the attached,
validated state, both info flags are clear and an immediate second file_read
returns EAGAIN with nothing forwarded. -/
theorem C10_witness :
    (file_read st_read2 env_ok []).st.info_read = false ∧
    (file_read st_read2 env_ok []).st.info_valid = false ∧
    (file_read st_read2 env_ok []).st.handle = true ∧
    (file_read st_read2 env_ok []).st.reading = true ∧
    (file_read (file_read st_read2 env_ok []).st env_ok []).ret = EAGAIN ∧
    (file_read (file_read st_read2 env_ok []).st env_ok []).forwarded = [] := by
  have h := C10_flags st_read2 env_ok [] rfl rfl (fun _ => rfl)
  exact ⟨h.1, h.2.1, h.2.2.1, h.2.2.2.1, (h.2.2.2.2 env_ok []).1, (h.2.2.2.2 env_ok []).2⟩

end Glcs
